import Mathlib

/-!
Verification of the workspace state
machine, backup recorder and dispatcher, shallowly embedded from
`src/toolkit/workspace.py`, `src/toolkit/backup_manager.py`,
`src/toolkit/utils.py` and `src/apply_package_configurations.py`.

A directory is modelled as an association list from filename to file
content (a CSV row, i.e. a list of fields).  `shutil.move` into a
directory raises when the destination file already exists or the source
file is missing; raising is modelled by `Option.none`, and a raise leaves
the filesystem unchanged.
-/

namespace OriginControl

/-- A directory: filenames mapped to file contents (list of CSV fields). -/
abbrev Dir := List (String × List String)

/-- Filesystem lookup of a filename in a directory. -/
def dirLookup : Dir → String → Option (List String)
  | [], _ => none
  | (k, v) :: rest, t => if k = t then some v else dirLookup rest t

/-- `os.path.exists` for a file name inside a directory. -/
def dirHas (d : Dir) (t : String) : Bool :=
  (dirLookup d t).isSome

/-- Removing a file from a directory. -/
def dirRemove (d : Dir) (t : String) : Dir :=
  d.filter (fun p => p.1 ≠ t)

/-- Creating/overwriting a file (`open(..., mode with w)` semantics). -/
def dirWrite (d : Dir) (t : String) (c : List String) : Dir :=
  (t, c) :: dirRemove d t

/-- `shutil.move(src/t, dstFolder)`: raises (`none`) if `dst/t` already
exists or `src/t` is missing; otherwise removes the file from `src` and
places it in `dst`. -/
def shutilMoveFile (src dst : Dir) (t : String) : Option (Dir × Dir) :=
  if dirHas dst t then none
  else
    match dirLookup src t with
    | none => none
    | some c => some (dirRemove src t, dirWrite dst t c)

/-- The workspace: three directories, `todo`, `error` and `done`
(`WorkspaceManager` in `workspace.py`). -/
structure Ws where
  todo : Dir
  error : Dir
  done : Dir
deriving DecidableEq, Repr

/-- `WorkspaceManager.move_to_done`: the source is `todo/filename`, or
`error/filename` when the former does not exist; the file is moved into
`done`.  `none` models the exception paths (state unchanged). -/
def move_to_done (w : Ws) (t : String) : Option Ws :=
  if dirHas w.todo t then
    (shutilMoveFile w.todo w.done t).map (fun p => { w with todo := p.1, done := p.2 })
  else
    (shutilMoveFile w.error w.done t).map (fun p => { w with error := p.1, done := p.2 })

/-- `WorkspaceManager.move_to_error`: if `error/filename` already exists
the function returns without doing anything; otherwise it moves
`todo/filename` into `error`. -/
def move_to_error (w : Ws) (t : String) : Option Ws :=
  if dirHas w.error t then some w
  else (shutilMoveFile w.todo w.error t).map (fun p => { w with todo := p.1, error := p.2 })

/-- `WorkspaceManager.move_to_retry`: moves `error/filename` back into
`todo`. -/
def move_to_retry (w : Ws) (t : String) : Option Ws :=
  (shutilMoveFile w.error w.todo t).map (fun p => { w with error := p.1, todo := p.2 })

/-- Number of the three collections currently holding file `t`. -/
def countIn (w : Ws) (t : String) : Nat :=
  (if dirHas w.todo t then 1 else 0) +
    (if dirHas w.error t then 1 else 0) +
    (if dirHas w.done t then 1 else 0)

/-- `WorkspaceManager.is_workspace_clean`: true iff `done` non-empty and
`todo`/`error` both empty. -/
def is_workspace_clean (w : Ws) : Bool :=
  w.done ≠ [] ∧ w.todo = [] ∧ w.error = []

/-- `WorkspaceManager.should_recreate_files`: evaluates the resumption
precedence rules of `workspace.py` lines 57-66. -/
def should_recreate_files (w : Ws) : Bool :=
  if is_workspace_clean w then false
  else if w.error ≠ [] then false
  else if w.todo ≠ [] then false
  else true

/-- One input record: a row of the input CSV
(`domain, repository, format, namespace, package, upstream, publish`). -/
structure TaskRecord where
  domain : String
  repository : String
  format : String
  «namespace» : String
  package : String
  upstream : String
  publish : String
deriving DecidableEq, Repr

/-- The composite key `(domain, repository, format, namespace, package)`
identifying a target resource. -/
def compositeKey (r : TaskRecord) : String × String × String × String × String :=
  (r.domain, r.repository, r.format, r.«namespace», r.package)

/-- `WorkspaceManager.FILE_NAME_PATTERN` applied to a record:
`{domain}-{repository}-{format}-{namespace}-{package}`. -/
def task_filename (r : TaskRecord) : String :=
  r.domain ++ "-" ++ r.repository ++ "-" ++ r.format ++ "-" ++ r.«namespace» ++ "-" ++ r.package

/-- `CSV_HEADER` from `utils.py`. -/
def CSV_HEADER : List String :=
  ["domain", "repository", "format", "namespace", "package", "upstream", "publish"]

/-- The CSV row written for a record, fields in `CSV_HEADER` order
(`csv.DictWriter(..., fieldnames=CSV_HEADER).writerow(line)`). -/
def recFields (r : TaskRecord) : List String :=
  [r.domain, r.repository, r.format, r.«namespace», r.package, r.upstream, r.publish]

/-- The body of the loop in `WorkspaceManager.create_input_files`: open
`todo/<task_filename>` with mode `w+` (truncating any existing file) and
write the row. -/
def writeTaskFile (d : Dir) (r : TaskRecord) : Dir :=
  dirWrite d (task_filename r) (recFields r)

/-- `WorkspaceManager.create_input_files`: when `should_recreate_files`
holds, split the input into one file per record under `todo`; otherwise
return without touching anything. -/
def create_input_files (records : List TaskRecord) (w : Ws) : Ws :=
  if should_recreate_files w then
    { w with todo := records.foldl writeTaskFile w.todo }
  else w

/-- Content of the `todo` directory produced by populating an empty
workspace. -/
def buildTodoFiles (records : List TaskRecord) : Dir :=
  records.foldl writeTaskFile []

/-- The content that ends up in a freshly populated workspace for a given
filename: the row of the LAST input record mapping to that filename
(later records overwrite earlier ones). -/
def lastWrittenContent : List TaskRecord → String → Option (List String)
  | [], _ => none
  | r :: rest, k =>
    match lastWrittenContent rest k with
    | some c => some c
    | none => if task_filename r = k then some (recFields r) else none

/-! ### Workspace initialization (`WorkspaceManager.setup_workspace`)

The five directories whose existence matters: the workspaces home, the
per-input workspace directory and its `todo`/`error`/`done` children.
`os.mkdir` raises `FileExistsError` on an existing directory; in
`setup_workspace` the first mkdir has its own `try/except pass`, while
the remaining FOUR mkdirs share a single `try/except pass`, so a raise
from any of them skips the rest of the block. -/

structure FsDirs where
  home : Bool
  wdir : Bool
  todo : Bool
  error : Bool
  done : Bool
deriving DecidableEq, Repr

/-- A filesystem-realisable state: a directory can only exist inside an
existing parent. -/
def wfDirs (s : FsDirs) : Prop :=
  (s.wdir = true → s.home = true) ∧ (s.todo = true → s.wdir = true) ∧
    (s.error = true → s.wdir = true) ∧ (s.done = true → s.wdir = true)

instance : DecidablePred wfDirs := fun s => by
  unfold wfDirs
  infer_instance

/-- `WorkspaceManager.setup_workspace`, lines 37-47 of `workspace.py`:
`try: mkdir(home) except FileExistsError: pass`, then
`try: mkdir(wdir); mkdir(todo); mkdir(error); mkdir(done) except
FileExistsError: pass`.  A `FileExistsError` raised by one mkdir of the
second block skips the remaining mkdirs of that block. -/
def setup_workspace (s : FsDirs) : FsDirs :=
  let s1 := { s with home := true }
  if s1.wdir then s1
  else
    let s2 := { s1 with wdir := true }
    if s2.todo then s2
    else
      let s3 := { s2 with todo := true }
      if s3.error then s3
      else
        let s4 := { s3 with error := true }
        if s4.done then s4 else { s4 with done := true }

/-! ### Backup recorder (`backup_manager.py`)

`BackupManager` has an unbounded FIFO `task_queue`; producers call
`do_backup`, which only enqueues; a single daemon thread writes the
header once and then drains the queue, appending one CSV row per tuple
and flushing after each row. -/

/-- The restriction flags `{upstream, publish}` as returned by
`CodeArtifactClient.get_restrictions`. -/
structure Restrictions where
  upstream : String
  publish : String
deriving DecidableEq, Repr

/-- Backup manager state: the FIFO queue (head = front) and the lines so
far written to the backup file. -/
structure BM where
  task_queue : List (TaskRecord × Restrictions)
  target_file : List (List String)
deriving DecidableEq, Repr

/-- `BackupManager.init_as_write` opens the target file for writing
(truncating it); the writer thread has not yet produced anything. -/
def init_as_write : BM :=
  { task_queue := [], target_file := [] }

/-- `csv_writer.writeheader()`, executed once by the writer thread at
startup. -/
def writeheader (b : BM) : BM :=
  { b with target_file := b.target_file ++ [CSV_HEADER] }

/-- `BackupManager.do_backup`: enqueue the tuple; the backup file itself
is not touched by the producer. -/
def do_backup (b : BM) (package : TaskRecord) (origin_configuration : Restrictions) : BM :=
  { b with task_queue := b.task_queue ++ [(package, origin_configuration)] }

/-- The row assembled by `BackupManager._writer_thread`: the five key
fields of the package plus the PRE-mutation `upstream`/`publish` values
from the fetched origin configuration, serialised in `CSV_HEADER`
order. -/
def backupLine (package : TaskRecord) (origin_configuration : Restrictions) : List String :=
  [package.domain, package.repository, package.format, package.«namespace», package.package,
    origin_configuration.upstream, origin_configuration.publish]

/-- One iteration of the writer-thread loop: dequeue the front tuple,
write its row and flush.  With an empty queue the thread blocks (state
unchanged). -/
def writerStep (b : BM) : BM :=
  match b.task_queue with
  | [] => b
  | (package, oc) :: rest =>
    { task_queue := rest, target_file := b.target_file ++ [backupLine package oc] }

/-- `n` iterations of the writer-thread loop. -/
def writerRun : Nat → BM → BM
  | 0, b => b
  | n + 1, b => writerRun n (writerStep b)

/-- A sequence of `do_backup` calls in their FIFO enqueue order. -/
def enqueueAll (b : BM) (tasks : List (TaskRecord × Restrictions)) : BM :=
  tasks.foldl (fun acc t => do_backup acc t.1 t.2) b

/-! ### Dispatcher (`apply_package_configurations.py`) and user
confirmation (`utils.py`). -/

/-- `get_user_confirmation` from `utils.py`: raises (`Except.error`) on
anything but `Y`, `y`, `N`, `n`; returns `false` on `N`/`n`, `true`
otherwise. -/
def get_user_confirmation (user_choice : String) : Except String Bool :=
  if user_choice ∈ (["Y", "y", "N", "n"] : List String) then
    if user_choice ∈ (["N", "n"] : List String) then Except.ok false
    else Except.ok true
  else Except.error (user_choice ++ " is not a valid input.")

/-- The remote collaborator (`CodeArtifactClient`): both operations can
raise, which the dispatcher treats uniformly as a per-task failure. -/
structure Client where
  get_restrictions : TaskRecord → Except String Restrictions
  apply_restrictions : TaskRecord → Except String String

/-- The configuration flags of `apply_package_configurations.py` that
`run_individual_task` consults, plus the interactive input the
confirmation prompt would read. -/
structure Cfg where
  ask_confirmation : Bool
  dry_run : Bool
  backup : Bool
  user_input : String
deriving DecidableEq, Repr

/-- Which workspace callback `run_individual_task` invoked for a task:
none at all, `done_callback` (= `move_to_done`), or `error_callback`
(= `move_to_error`). -/
inductive Transition where
  | skipped
  | done
  | error
deriving DecidableEq, Repr

/-- Observable outcome of `run_individual_task` on one task: the state
transition performed, the returned success flag, the `do_backup` calls
and the `apply_restrictions` calls it made, and the result value. -/
structure Outcome where
  transition : Transition
  success : Bool
  backups : List (TaskRecord × Restrictions)
  applies : List TaskRecord
  res : Option String
deriving DecidableEq, Repr

/-- Steps 3-4 of `run_individual_task`, after confirmation and backup
succeeded: unless in dry-run mode, invoke `apply_restrictions`; an
exception routes to `error_callback`, success to `done_callback`. -/
def runApplyPhase (cfg : Cfg) (cl : Client) (r : TaskRecord)
    (backups : List (TaskRecord × Restrictions)) : Outcome :=
  if cfg.dry_run then
    { transition := Transition.done, success := true, backups := backups,
      applies := [], res := none }
  else
    match cl.apply_restrictions r with
    | Except.error _ =>
      { transition := Transition.error, success := false, backups := backups,
        applies := [r], res := none }
    | Except.ok a =>
      { transition := Transition.done, success := true, backups := backups,
        applies := [r], res := some a }

/-- Step 2 of `run_individual_task`: if a backup manager is present,
fetch the current restrictions and hand them to `do_backup`; an
exception from the fetch routes to `error_callback` before `do_backup`
is ever called. -/
def runBackupPhase (cfg : Cfg) (cl : Client) (r : TaskRecord) : Outcome :=
  if cfg.backup then
    match cl.get_restrictions r with
    | Except.error _ =>
      { transition := Transition.error, success := false, backups := [],
        applies := [], res := none }
    | Except.ok oc => runApplyPhase cfg cl r [(r, oc)]
  else runApplyPhase cfg cl r []

/-- `run_individual_task` from `apply_package_configurations.py`: the
whole body runs in a `try` whose handler calls `error_callback` and
returns failure; a negative confirmation returns failure WITHOUT any
callback; otherwise backup and mutation run and `done_callback` fires on
success. -/
def run_individual_task (cfg : Cfg) (cl : Client) (r : TaskRecord) : Outcome :=
  if cfg.ask_confirmation then
    match get_user_confirmation cfg.user_input with
    | Except.error _ =>
      { transition := Transition.error, success := false, backups := [],
        applies := [], res := none }
    | Except.ok false =>
      { transition := Transition.skipped, success := false, backups := [],
        applies := [], res := none }
    | Except.ok true => runBackupPhase cfg cl r
  else runBackupPhase cfg cl r

/-- Applying the transition reported for task `t` to the workspace, via
the callbacks yielded by `get_tasks` (`done_callback = move_to_done`,
`error_callback = move_to_error`). -/
def applyOutcome (w : Ws) (t : String) : Transition → Ws
  | Transition.skipped => w
  | Transition.done => (move_to_done w t).getD w
  | Transition.error => (move_to_error w t).getD w

/-- The outcome list built by `dispatch_work`/`dispatch_task`: one
boolean per task. -/
def dispatch_outcomes (cfg : Cfg) (cl : Client) (tasks : List TaskRecord) : List Bool :=
  tasks.map (fun r => (run_individual_task cfg cl r).success)

/-- `len(list(filter(lambda x: x, proc)))` — the success total printed by
`dispatch_work`. -/
def successCount (proc : List Bool) : Nat :=
  (proc.filter (fun x => x)).length

/-- `len(list(filter(lambda x: not x, proc)))` — the failure total
printed by `dispatch_work`. -/
def failureCount (proc : List Bool) : Nat :=
  (proc.filter (fun x => !x)).length

/-! ### Concrete inputs used by witnesses and counterexamples. -/

/-- A sample input record. -/
def rec0 : TaskRecord :=
  { domain := "d", repository := "repo", format := "pypi", «namespace» := "",
    package := "pkg", upstream := "ALLOW", publish := "ALLOW" }

/-- A second sample record, key distinct from `rec0`. -/
def rec1 : TaskRecord :=
  { domain := "d", repository := "repo", format := "pypi", «namespace» := "",
    package := "other", upstream := "BLOCK", publish := "ALLOW" }

/-- First record of the filename-collision pair: composite key
`("a-b", "c", "pypi", "", "p")`. -/
def collideRec1 : TaskRecord :=
  { domain := "a-b", repository := "c", format := "pypi", «namespace» := "",
    package := "p", upstream := "ALLOW", publish := "ALLOW" }

/-- Second record of the filename-collision pair: composite key
`("a", "b-c", "pypi", "", "p")`, distinct from that of `collideRec1`, yet the
hyphen-joined filename is the same string `a-b-c-pypi--p`. -/
def collideRec2 : TaskRecord :=
  { domain := "a", repository := "b-c", format := "pypi", «namespace» := "",
    package := "p", upstream := "ALLOW", publish := "BLOCK" }

/-- A collaborator whose calls always succeed. -/
def clientOk : Client :=
  { get_restrictions := fun _ => Except.ok { upstream := "ALLOW", publish := "BLOCK" },
    apply_restrictions := fun _ => Except.ok "ack" }

/-- Configuration: interactive confirmation on, the user answers `n`. -/
def cfgNo : Cfg :=
  { ask_confirmation := true, dry_run := false, backup := false, user_input := "n" }

/-- Configuration: dry-run with backup enabled, no confirmation. -/
def cfgDry : Cfg :=
  { ask_confirmation := false, dry_run := true, backup := true, user_input := "Y" }

/-- Configuration: interactive confirmation on, the user types an
invalid response. -/
def cfgBad : Cfg :=
  { ask_confirmation := true, dry_run := false, backup := false, user_input := "yes" }

/-- A workspace whose only file is the task file of `rec0`, sitting in
`todo`. -/
def wsTodo0 : Ws :=
  { todo := [(task_filename rec0, recFields rec0)], error := [], done := [] }

/-- A workspace in which the task file of `rec0` is recorded in `error`
(with some earlier diagnostic content) and a fresh copy sits in `todo`. -/
def wsErr0 : Ws :=
  { todo := [(task_filename rec0, recFields rec1)],
    error := [(task_filename rec0, recFields rec0)], done := [] }

/-- A partially pre-existing directory tree: the workspace directory
exists but none of the three state directories do. -/
def partialTree : FsDirs :=
  { home := true, wdir := true, todo := false, error := false, done := false }

/-- A completely fresh filesystem: nothing exists yet. -/
def emptyTree : FsDirs :=
  { home := false, wdir := false, todo := false, error := false, done := false }

/-! Basic directory lemmas. -/

theorem dirLookup_dirRemove_self (d : Dir) (t : String) :
    dirLookup (dirRemove d t) t = none := by
  induction d with
  | nil => rfl
  | cons p rest ih =>
    by_cases h : p.1 = t
    · simpa [dirRemove, List.filter, h] using ih
    · simpa [dirRemove, List.filter, h, dirLookup] using ih

theorem dirLookup_dirWrite_self (d : Dir) (t : String) (c : List String) :
    dirLookup (dirWrite d t c) t = some c := by
  simp [dirWrite, dirLookup]

theorem dirHas_dirRemove_self (d : Dir) (t : String) :
    dirHas (dirRemove d t) t = false := by
  simp [dirHas, dirLookup_dirRemove_self]

theorem dirHas_dirWrite_self (d : Dir) (t : String) (c : List String) :
    dirHas (dirWrite d t c) t = true := by
  simp [dirHas, dirLookup_dirWrite_self]

theorem dirHas_eq_some (d : Dir) (t : String) (h : dirHas d t = true) :
    ∃ c, dirLookup d t = some c := by
  unfold dirHas at h
  cases hl : dirLookup d t with
  | none => rw [hl] at h; simp [Option.isSome] at h
  | some c => exact ⟨c, rfl⟩

theorem dirHas_false_lookup (d : Dir) (t : String) (h : dirHas d t = false) :
    dirLookup d t = none := by
  unfold dirHas at h
  cases hl : dirLookup d t with
  | none => rfl
  | some c => rw [hl] at h; simp [Option.isSome] at h

theorem countIn_cases (w : Ws) (t : String) (h : countIn w t = 1) :
    (dirHas w.todo t = true ∧ dirHas w.error t = false ∧ dirHas w.done t = false) ∨
      (dirHas w.todo t = false ∧ dirHas w.error t = true ∧ dirHas w.done t = false) ∨
      (dirHas w.todo t = false ∧ dirHas w.error t = false ∧ dirHas w.done t = true) := by
  unfold countIn at h
  cases h1 : dirHas w.todo t <;> cases h2 : dirHas w.error t <;>
    cases h3 : dirHas w.done t <;> simp [h1, h2, h3] at h ⊢

theorem move_to_done_count (w : Ws) (t : String) (h : countIn w t = 1) :
    countIn ((move_to_done w t).getD w) t = 1 := by
  rcases countIn_cases w t h with ⟨h1, h2, h3⟩ | ⟨h1, h2, h3⟩ | ⟨h1, h2, h3⟩
  · obtain ⟨c, hc⟩ := dirHas_eq_some _ _ h1
    simp [move_to_done, h1, shutilMoveFile, h3, hc, countIn,
      dirHas_dirRemove_self, dirHas_dirWrite_self, h2]
  · obtain ⟨c, hc⟩ := dirHas_eq_some _ _ h2
    simp [move_to_done, h1, shutilMoveFile, h3, hc, countIn,
      dirHas_dirRemove_self, dirHas_dirWrite_self, h1]
  · have hl := dirHas_false_lookup _ _ h2
    simp [move_to_done, h1, shutilMoveFile, h3, hl, h]

theorem move_to_error_count (w : Ws) (t : String) (h : countIn w t = 1) :
    countIn ((move_to_error w t).getD w) t = 1 := by
  rcases countIn_cases w t h with ⟨h1, h2, h3⟩ | ⟨h1, h2, h3⟩ | ⟨h1, h2, h3⟩
  · obtain ⟨c, hc⟩ := dirHas_eq_some _ _ h1
    simp [move_to_error, h2, shutilMoveFile, hc, countIn,
      dirHas_dirRemove_self, dirHas_dirWrite_self, h3]
  · simp [move_to_error, h2, h]
  · have hl := dirHas_false_lookup _ _ h1
    simp [move_to_error, h2, shutilMoveFile, hl, h]

theorem move_to_retry_count (w : Ws) (t : String) (h : countIn w t = 1) :
    countIn ((move_to_retry w t).getD w) t = 1 := by
  rcases countIn_cases w t h with ⟨h1, h2, h3⟩ | ⟨h1, h2, h3⟩ | ⟨h1, h2, h3⟩
  · simp [move_to_retry, shutilMoveFile, h1, h]
  · obtain ⟨c, hc⟩ := dirHas_eq_some _ _ h2
    simp [move_to_retry, shutilMoveFile, h1, hc, countIn,
      dirHas_dirRemove_self, dirHas_dirWrite_self, h3]
  · have hl := dirHas_false_lookup _ _ h2
    simp [move_to_retry, shutilMoveFile, h1, hl, h]

/-- C1: in every workspace state where a task id is present in exactly
one of `todo`, `error`, `done`, each of `move_to_done`, `move_to_error`
and `move_to_retry` preserves that property; on the exception paths the
state is unchanged (modelled by `Option.getD`). -/
theorem C1_moves_preserve_exactly_one (w : Ws) (t : String) (h : countIn w t = 1) :
    countIn ((move_to_done w t).getD w) t = 1 ∧
      countIn ((move_to_error w t).getD w) t = 1 ∧
      countIn ((move_to_retry w t).getD w) t = 1 :=
  ⟨move_to_done_count w t h, move_to_error_count w t h, move_to_retry_count w t h⟩

/-- Witness for C1 at a concrete one-task workspace. -/
theorem C1_moves_preserve_exactly_one_witness :
    countIn wsTodo0 (task_filename rec0) = 1 ∧
      (countIn ((move_to_done wsTodo0 (task_filename rec0)).getD wsTodo0) (task_filename rec0) = 1 ∧
        countIn ((move_to_error wsTodo0 (task_filename rec0)).getD wsTodo0) (task_filename rec0) = 1 ∧
        countIn ((move_to_retry wsTodo0 (task_filename rec0)).getD wsTodo0) (task_filename rec0) = 1) :=
  ⟨by decide, C1_moves_preserve_exactly_one wsTodo0 (task_filename rec0) (by decide)⟩

/-- C3: when a file with the given id already exists in `error`,
`move_to_error` is a no-op returning the state unchanged; consequently a
second `move_to_error` after a first one changes neither the recorded
error content nor the `todo` collection. -/
theorem C3_markError_first_failure_wins (w : Ws) (t : String) :
    (dirHas w.error t = true → move_to_error w t = some w) ∧
      (∀ c, dirLookup w.todo t = some c → dirHas w.error t = false →
        ∃ w1, move_to_error w t = some w1 ∧ dirLookup w1.error t = some c ∧
          move_to_error w1 t = some w1) := by
  constructor
  · intro h
    simp [move_to_error, h]
  · intro c hc herr
    refine ⟨{ w with todo := dirRemove w.todo t, error := dirWrite w.error t c }, ?_, ?_, ?_⟩
    · simp [move_to_error, herr, shutilMoveFile, hc]
    · simpa using dirLookup_dirWrite_self w.error t c
    · simp [move_to_error, dirHas_dirWrite_self]

/-- Witness for C3: the no-op branch at a state already holding an error
record, and the double-call scenario starting from a `todo`-only
state. -/
theorem C3_markError_first_failure_wins_witness :
    move_to_error wsErr0 (task_filename rec0) = some wsErr0 ∧
      (∃ w1, move_to_error wsTodo0 (task_filename rec0) = some w1 ∧
        dirLookup w1.error (task_filename rec0) = some (recFields rec0) ∧
        move_to_error w1 (task_filename rec0) = some w1) :=
  ⟨(C3_markError_first_failure_wins wsErr0 (task_filename rec0)).1 (by decide),
    (C3_markError_first_failure_wins wsTodo0 (task_filename rec0)).2
      (recFields rec0) (by decide) (by decide)⟩

/-- C7: from a state where the task is exactly in `todo`, the sequence
`move_to_error`, `move_to_retry`, `move_to_done` succeeds at every step
and ends with the task in `done` and absent from `todo` and `error`. -/
theorem C7_retry_roundtrip (w : Ws) (t : String)
    (htodo : dirHas w.todo t = true) (herr : dirHas w.error t = false)
    (hdone : dirHas w.done t = false) :
    ∃ w1 w2 w3,
      move_to_error w t = some w1 ∧ move_to_retry w1 t = some w2 ∧
        move_to_done w2 t = some w3 ∧
        dirHas w3.done t = true ∧ dirHas w3.todo t = false ∧ dirHas w3.error t = false := by
  obtain ⟨c, hc⟩ := dirHas_eq_some _ _ htodo
  refine ⟨{ w with todo := dirRemove w.todo t, error := dirWrite w.error t c }, { w with todo := dirWrite (dirRemove w.todo t) t c, error := dirRemove (dirWrite w.error t c) t }, { w with todo := dirRemove (dirWrite (dirRemove w.todo t) t c) t, error := dirRemove (dirWrite w.error t c) t, done := dirWrite w.done t c }, ?_, ?_, ?_, ?_, ?_, ?_⟩
  · simp [move_to_error, herr, shutilMoveFile, hc]
  · simp [move_to_retry, shutilMoveFile, dirHas_dirRemove_self,
      dirLookup_dirWrite_self]
  · simp [move_to_done, dirHas_dirWrite_self, shutilMoveFile, hdone,
      dirLookup_dirWrite_self]
  · simp [dirHas_dirWrite_self]
  · simp [dirHas_dirRemove_self]
  · simp [dirHas_dirRemove_self]

/-- Witness for C7 at a concrete one-task workspace. -/
theorem C7_retry_roundtrip_witness :
    dirHas wsTodo0.todo (task_filename rec0) = true ∧
      dirHas wsTodo0.error (task_filename rec0) = false ∧
      dirHas wsTodo0.done (task_filename rec0) = false ∧
      (∃ w1 w2 w3,
        move_to_error wsTodo0 (task_filename rec0) = some w1 ∧
          move_to_retry w1 (task_filename rec0) = some w2 ∧
          move_to_done w2 (task_filename rec0) = some w3 ∧
          dirHas w3.done (task_filename rec0) = true ∧
          dirHas w3.todo (task_filename rec0) = false ∧
          dirHas w3.error (task_filename rec0) = false) :=
  ⟨by decide, by decide, by decide,
    C7_retry_roundtrip wsTodo0 (task_filename rec0) (by decide) (by decide) (by decide)⟩

theorem dirRemove_cons (p : String × List String) (rest : Dir) (t : String) :
    dirRemove (p :: rest) t =
      if p.1 = t then dirRemove rest t else p :: dirRemove rest t := by
  by_cases hp : p.1 = t <;> simp [dirRemove, List.filter_cons, hp]

theorem dirLookup_dirRemove_ne (d : Dir) (t k : String) (h : k ≠ t) :
    dirLookup (dirRemove d t) k = dirLookup d k := by
  induction d with
  | nil => rfl
  | cons p rest ih =>
    obtain ⟨a, b⟩ := p
    rw [dirRemove_cons]
    by_cases hp : a = t
    · rw [if_pos hp, ih]
      have hpk : a ≠ k := by rw [hp]; exact fun he => h he.symm
      simp [dirLookup, hpk]
    · rw [if_neg hp]
      by_cases hk : a = k
      · simp [dirLookup, hk]
      · simp [dirLookup, hk, ih]

theorem dirLookup_dirWrite_ne (d : Dir) (t k : String) (c : List String) (h : k ≠ t) :
    dirLookup (dirWrite d t c) k = dirLookup d k := by
  have ht : t ≠ k := fun he => h he.symm
  simp [dirWrite, dirLookup, ht, dirLookup_dirRemove_ne d t k h]

theorem dirRemove_of_not_has (d : Dir) (t : String) (h : dirHas d t = false) :
    dirRemove d t = d := by
  induction d with
  | nil => rfl
  | cons p rest ih =>
    by_cases hp : p.1 = t
    · exfalso
      simp [dirHas, dirLookup, hp] at h
    · have hrest : dirHas rest t = false := by
        simpa [dirHas, dirLookup, hp] using h
      simp [dirRemove, List.filter, hp] at ih ⊢
      exact ih hrest

/-- The filenames present in a directory. -/
def dirKeys (d : Dir) : List String := d.map Prod.fst

theorem mem_dirKeys_iff_dirHas (d : Dir) (k : String) :
    k ∈ dirKeys d ↔ dirHas d k = true := by
  induction d with
  | nil => simp [dirKeys, dirHas, dirLookup]
  | cons p rest ih =>
    by_cases hp : p.1 = k
    · simp [dirKeys, dirHas, dirLookup, hp]
    · have hp2 : k ≠ p.1 := fun he => hp he.symm
      simp [dirKeys, dirHas, dirLookup, hp, hp2] at ih ⊢
      exact ih

theorem dirKeys_nodup_dirWrite (d : Dir) (t : String) (c : List String)
    (h : (dirKeys d).Nodup) : (dirKeys (dirWrite d t c)).Nodup := by
  have hsub : List.Sublist (dirRemove d t) d := List.filter_sublist d
  have hkeys : List.Sublist (dirKeys (dirRemove d t)) (dirKeys d) := hsub.map Prod.fst
  have hnd : (dirKeys (dirRemove d t)).Nodup := h.sublist hkeys
  have hnotmem : t ∉ dirKeys (dirRemove d t) := by
    rw [mem_dirKeys_iff_dirHas]
    simp [dirHas_dirRemove_self]
  simpa [dirWrite, dirKeys] using And.intro hnotmem hnd

theorem dirKeys_nodup_foldl (records : List TaskRecord) :
    ∀ d : Dir, (dirKeys d).Nodup → (dirKeys (records.foldl writeTaskFile d)).Nodup := by
  induction records with
  | nil => intro d h; simpa using h
  | cons r rest ih =>
    intro d h
    simpa using ih (writeTaskFile d r) (dirKeys_nodup_dirWrite d _ _ h)

theorem dirLookup_foldl_writeTaskFile (records : List TaskRecord) :
    ∀ (d : Dir) (k : String),
      dirLookup (records.foldl writeTaskFile d) k =
        (lastWrittenContent records k).or (dirLookup d k) := by
  induction records with
  | nil => intro d k; simp [lastWrittenContent]
  | cons r rest ih =>
    intro d k
    simp only [List.foldl_cons, lastWrittenContent]
    rw [ih]
    cases hrest : lastWrittenContent rest k with
    | some c => simp
    | none =>
      by_cases hk : task_filename r = k
      · subst hk
        simp [writeTaskFile, dirLookup_dirWrite_self]
      · have hk2 : k ≠ task_filename r := fun he => hk he.symm
        simp [writeTaskFile, dirLookup_dirWrite_ne _ _ _ _ hk2, hk]

theorem dirHas_dirWrite_ne (d : Dir) (t k : String) (c : List String) (h : k ≠ t) :
    dirHas (dirWrite d t c) k = dirHas d k := by
  simp [dirHas, dirLookup_dirWrite_ne d t k c h]

theorem foldl_writeTaskFile_length (records : List TaskRecord) :
    ∀ d : Dir, (∀ r ∈ records, dirHas d (task_filename r) = false) →
      (records.map task_filename).Nodup →
      (records.foldl writeTaskFile d).length = d.length + records.length := by
  induction records with
  | nil => intro d _ _; simp
  | cons r rest ih =>
    intro d hd hnd
    have hr : dirHas d (task_filename r) = false := hd r (List.mem_cons_self r rest)
    have hwlen : (writeTaskFile d r).length = d.length + 1 := by
      unfold writeTaskFile dirWrite
      rw [dirRemove_of_not_has d _ hr]
      simp
    rw [List.map_cons] at hnd
    obtain ⟨hnotmem, hnd2⟩ := List.nodup_cons.mp hnd
    have hhead : ∀ r2 ∈ rest, task_filename r2 ≠ task_filename r := by
      intro r2 hmem he
      exact hnotmem (by rw [← he]; exact List.mem_map_of_mem task_filename hmem)
    have hcond : ∀ r2 ∈ rest, dirHas (writeTaskFile d r) (task_filename r2) = false := by
      intro r2 hmem
      rw [writeTaskFile, dirHas_dirWrite_ne d _ _ _ (hhead r2 hmem)]
      exact hd r2 (List.mem_cons_of_mem r hmem)
    simp only [List.foldl_cons, List.length_cons]
    rw [ih (writeTaskFile d r) hcond hnd2, hwlen]
    omega

theorem create_input_files_ite (records : List TaskRecord) (w : Ws) :
    create_input_files records w =
      if w.todo = [] ∧ w.error = [] ∧ w.done = [] then
        { w with todo := buildTodoFiles records }
      else w := by
  rcases w with ⟨td, er, dn⟩
  unfold create_input_files should_recreate_files is_workspace_clean buildTodoFiles
  by_cases h1 : td = [] <;> by_cases h2 : er = [] <;> by_cases h3 : dn = [] <;>
    simp [h1, h2, h3]

/-- C2: `create_input_files` changes a pre-existing workspace exactly
when `todo`, `error` and `done` are all empty, in which case the input
is split into one file per record under `todo`; in every other case
(clean workspace, errors present, or work pending) the state is returned
untouched. -/
theorem C2_populate_only_when_all_empty (records : List TaskRecord) (w : Ws) :
    create_input_files records w =
      if w.todo = [] ∧ w.error = [] ∧ w.done = [] then
        { w with todo := buildTodoFiles records }
      else w :=
  create_input_files_ite records w

/-- C5 (amended): populating an empty workspace yields a `todo`
directory with no duplicate filenames, whose entry for any filename is
the row of the last input record mapping to that filename (later records
silently overwrite earlier ones), and with exactly N files when the N
derived filenames are distinct; `error` and `done` stay empty. -/
theorem C5_one_file_per_filename (records : List TaskRecord) :
    create_input_files records { todo := [], error := [], done := [] } =
        { todo := buildTodoFiles records, error := [], done := [] } ∧
      (dirKeys (buildTodoFiles records)).Nodup ∧
      (∀ k, dirLookup (buildTodoFiles records) k = lastWrittenContent records k) ∧
      ((records.map task_filename).Nodup →
        (buildTodoFiles records).length = records.length) := by
  refine ⟨?_, ?_, ?_, ?_⟩
  · rw [create_input_files_ite]
    simp
  · exact dirKeys_nodup_foldl records [] (by simp [dirKeys])
  · intro k
    have := dirLookup_foldl_writeTaskFile records [] k
    simpa [buildTodoFiles, dirLookup] using this
  · intro hnd
    have := foldl_writeTaskFile_length records []
      (by intro r _; simp [dirHas, dirLookup]) hnd
    simpa [buildTodoFiles] using this

/-- Witness for C5 (amended) on a concrete two-record input with
distinct filenames. -/
theorem C5_one_file_per_filename_witness :
    create_input_files [rec0, rec1] { todo := [], error := [], done := [] } =
        { todo := buildTodoFiles [rec0, rec1], error := [], done := [] } ∧
      (dirKeys (buildTodoFiles [rec0, rec1])).Nodup ∧
      (dirLookup (buildTodoFiles [rec0, rec1]) (task_filename rec0) =
        lastWrittenContent [rec0, rec1] (task_filename rec0)) ∧
      (([rec0, rec1].map task_filename).Nodup ∧
        (buildTodoFiles [rec0, rec1]).length = 2) := by
  obtain ⟨h1, h2, h3, h4⟩ := C5_one_file_per_filename [rec0, rec1]
  exact ⟨h1, h2, h3 (task_filename rec0), by decide, h4 (by decide)⟩

/-- Counterexample for C5 as stated: two records with DISTINCT composite
keys whose hyphen-joined filenames collide, so populating produces one
file instead of two. -/
theorem C5_distinct_keys_collide :
    compositeKey collideRec1 ≠ compositeKey collideRec2 ∧
      task_filename collideRec1 = task_filename collideRec2 ∧
      ((create_input_files [collideRec1, collideRec2]
          { todo := [], error := [], done := [] }).todo).length = 1 := by
  refine ⟨by decide, by decide, ?_⟩
  rw [create_input_files_ite]
  decide

/-- Counterexample for C9 as stated: with the workspace directory
already existing but its three state directories missing (a valid
filesystem state), `setup_workspace` raises nothing yet creates NONE of
the three state directories, because the `FileExistsError` from the
first `mkdir` of the shared `try` block skips the remaining mkdirs. -/
theorem C9_partial_tree_not_repaired :
    wfDirs partialTree ∧
      ¬((setup_workspace partialTree).todo = true ∧
        (setup_workspace partialTree).error = true ∧
        (setup_workspace partialTree).done = true) := by
  decide

/-- C9 (amended): `setup_workspace` never raises, and after it all three
state directories exist provided the workspace directory itself did not
pre-exist; when the workspace directory pre-exists, the inner mkdirs are
skipped and the tree is returned as found (only the workspaces home is
ensured). -/
theorem C9_setup_workspace_amended (s : FsDirs) (hwf : wfDirs s) :
    (s.wdir = false →
      (setup_workspace s).home = true ∧ (setup_workspace s).wdir = true ∧
        (setup_workspace s).todo = true ∧ (setup_workspace s).error = true ∧
        (setup_workspace s).done = true) ∧
      (s.wdir = true → setup_workspace s = { s with home := true }) := by
  rcases s with ⟨h, w, t, e, d⟩
  revert hwf
  cases h <;> cases w <;> cases t <;> cases e <;> cases d <;> decide

/-- Witness for C9 (amended) on a fresh filesystem. -/
theorem C9_setup_workspace_amended_witness :
    wfDirs emptyTree ∧
      ((emptyTree.wdir = false →
        (setup_workspace emptyTree).home = true ∧ (setup_workspace emptyTree).wdir = true ∧
          (setup_workspace emptyTree).todo = true ∧ (setup_workspace emptyTree).error = true ∧
          (setup_workspace emptyTree).done = true) ∧
        (emptyTree.wdir = true → setup_workspace emptyTree = { emptyTree with home := true })) :=
  ⟨by decide, C9_setup_workspace_amended emptyTree (by decide)⟩

theorem enqueueAll_spec (tasks : List (TaskRecord × Restrictions)) :
    ∀ b : BM, enqueueAll b tasks =
      { task_queue := b.task_queue ++ tasks, target_file := b.target_file } := by
  induction tasks with
  | nil => intro b; simp [enqueueAll]
  | cons x rest ih =>
    intro b
    have hstep : enqueueAll b (x :: rest) = enqueueAll (do_backup b x.1 x.2) rest := rfl
    rw [hstep, ih]
    simp [do_backup]

theorem writerRun_drain (tasks : List (TaskRecord × Restrictions)) :
    ∀ pre : List (List String),
      writerRun tasks.length { task_queue := tasks, target_file := pre } =
        { task_queue := [],
          target_file := pre ++ tasks.map (fun x => backupLine x.1 x.2) } := by
  induction tasks with
  | nil => intro pre; simp [writerRun]
  | cons x rest ih =>
    intro pre
    obtain ⟨p, oc⟩ := x
    have hstep :
        writerStep { task_queue := (p, oc) :: rest, target_file := pre } =
          { task_queue := rest, target_file := pre ++ [backupLine p oc] } := rfl
    simp only [List.length_cons, writerRun, hstep]
    rw [ih (pre ++ [backupLine p oc])]
    simp

/-- C6: when the N enqueued tuples are all consumed, the backup file is
exactly one header line followed by the N data rows in FIFO enqueue
order, each row a seven-field record carrying the pre-mutation
restriction values; and `do_backup` (the producer side) never touches
the file, which only the writer-thread steps append to. -/
theorem C6_backup_file_well_formed (tasks : List (TaskRecord × Restrictions)) :
    (writerRun tasks.length (writeheader (enqueueAll init_as_write tasks))).target_file =
        CSV_HEADER :: tasks.map (fun x => backupLine x.1 x.2) ∧
      (writerRun tasks.length (writeheader (enqueueAll init_as_write tasks))).target_file.length =
        tasks.length + 1 ∧
      (∀ l ∈ (writerRun tasks.length
          (writeheader (enqueueAll init_as_write tasks))).target_file, l.length = 7) ∧
      (∀ (b : BM) (p : TaskRecord) (oc : Restrictions),
        (do_backup b p oc).target_file = b.target_file) := by
  have h1 : writeheader (enqueueAll init_as_write tasks) =
      { task_queue := tasks, target_file := [CSV_HEADER] } := by
    rw [enqueueAll_spec]
    simp [init_as_write, writeheader]
  have h2 : (writerRun tasks.length (writeheader (enqueueAll init_as_write tasks))).target_file =
      CSV_HEADER :: tasks.map (fun x => backupLine x.1 x.2) := by
    rw [h1, writerRun_drain]
    simp
  refine ⟨h2, ?_, ?_, ?_⟩
  · rw [h2]
    simp
  · intro l hl
    rw [h2] at hl
    rcases List.mem_cons.mp hl with hl | hl
    · rw [hl]
      rfl
    · obtain ⟨x, _, hx⟩ := List.mem_map.mp hl
      rw [← hx]
      rfl
  · intro b p oc
    rfl

/-- C8: in dry-run mode (without interactive confirmation) the mutation
operation `apply_restrictions` is never invoked; every task processed
without an exception ends with `done_callback` (and, applied to a
workspace holding the task in `todo`, lands the file in `done`); and
when backup is enabled the pre-mutation restriction state is still
fetched and handed to the backup recorder. -/
theorem C8_dry_run_behaviour (cfg : Cfg) (cl : Client) (r : TaskRecord) (w : Ws) (t : String)
    (hdry : cfg.dry_run = true) (hask : cfg.ask_confirmation = false) :
    (run_individual_task cfg cl r).applies = [] ∧
      ((run_individual_task cfg cl r).transition ≠ Transition.error →
        (run_individual_task cfg cl r).transition = Transition.done ∧
          (run_individual_task cfg cl r).success = true ∧
          (cfg.backup = true → ∃ oc, cl.get_restrictions r = Except.ok oc ∧
            (run_individual_task cfg cl r).backups = [(r, oc)]) ∧
          (dirHas w.todo t = true → dirHas w.done t = false →
            dirHas (applyOutcome w t (run_individual_task cfg cl r).transition).done t = true ∧
              dirHas (applyOutcome w t (run_individual_task cfg cl r).transition).todo t = false)) := by
  have hland : dirHas w.todo t = true → dirHas w.done t = false →
      dirHas (applyOutcome w t Transition.done).done t = true ∧
        dirHas (applyOutcome w t Transition.done).todo t = false := by
    intro htodo hdone
    obtain ⟨c, hc⟩ := dirHas_eq_some _ _ htodo
    simp [applyOutcome, move_to_done, htodo, shutilMoveFile, hdone, hc,
      dirHas_dirWrite_self, dirHas_dirRemove_self]
  cases hb : cfg.backup
  · have hrun : run_individual_task cfg cl r =
        { transition := Transition.done, success := true, backups := [],
          applies := [], res := none } := by
      simp [run_individual_task, hask, runBackupPhase, hb, runApplyPhase, hdry]
    rw [hrun]
    refine ⟨rfl, fun _ => ⟨rfl, rfl, ?_, hland⟩⟩
    intro hcontra
    simp at hcontra
  · cases hg : cl.get_restrictions r with
    | error msg =>
      have hrun : run_individual_task cfg cl r =
          { transition := Transition.error, success := false, backups := [],
            applies := [], res := none } := by
        simp [run_individual_task, hask, runBackupPhase, hb, hg]
      rw [hrun]
      exact ⟨rfl, fun hne => absurd rfl hne⟩
    | ok oc =>
      have hrun : run_individual_task cfg cl r =
          { transition := Transition.done, success := true, backups := [(r, oc)],
            applies := [], res := none } := by
        simp [run_individual_task, hask, runBackupPhase, hb, hg, runApplyPhase, hdry]
      rw [hrun]
      exact ⟨rfl, fun _ => ⟨rfl, rfl, fun _ => ⟨oc, rfl, rfl⟩, hland⟩⟩

/-- Witness for C8 at a concrete dry-run configuration with backup
enabled and an always-succeeding collaborator. -/
theorem C8_dry_run_behaviour_witness :
    cfgDry.dry_run = true ∧ cfgDry.ask_confirmation = false ∧
      ((run_individual_task cfgDry clientOk rec0).applies = [] ∧
        ((run_individual_task cfgDry clientOk rec0).transition ≠ Transition.error →
          (run_individual_task cfgDry clientOk rec0).transition = Transition.done ∧
            (run_individual_task cfgDry clientOk rec0).success = true ∧
            (cfgDry.backup = true → ∃ oc, clientOk.get_restrictions rec0 = Except.ok oc ∧
              (run_individual_task cfgDry clientOk rec0).backups = [(rec0, oc)]) ∧
            (dirHas wsTodo0.todo (task_filename rec0) = true →
              dirHas wsTodo0.done (task_filename rec0) = false →
              dirHas (applyOutcome wsTodo0 (task_filename rec0)
                (run_individual_task cfgDry clientOk rec0).transition).done
                  (task_filename rec0) = true ∧
                dirHas (applyOutcome wsTodo0 (task_filename rec0)
                  (run_individual_task cfgDry clientOk rec0).transition).todo
                    (task_filename rec0) = false))) :=
  ⟨rfl, rfl, C8_dry_run_behaviour cfgDry clientOk rec0 wsTodo0 (task_filename rec0) rfl rfl⟩

/-- Counterexample for C4 as stated: with confirmation enabled and the
user answering `n`, the task makes no state transition — but the
end-of-run summary DOES count it: the outcome list records `false` for
it, so the printed failure total is 1, not 0. -/
theorem C4_abort_counted_as_failure :
    (run_individual_task cfgNo clientOk rec0).transition = Transition.skipped ∧
      successCount (dispatch_outcomes cfgNo clientOk [rec0]) = 0 ∧
      failureCount (dispatch_outcomes cfgNo clientOk [rec0]) = 1 := by
  decide

/-- C4 (amended): a negative confirmation aborts the task with no state
transition, no backup and no mutation call, and it is not counted as a
success — but it IS counted among the failures in the end-of-run
summary, because `run_individual_task` returns `false` for it. -/
theorem C4_negative_confirmation_aborts (cfg : Cfg) (cl : Client) (r : TaskRecord)
    (hask : cfg.ask_confirmation = true)
    (hin : cfg.user_input = "N" ∨ cfg.user_input = "n") :
    (run_individual_task cfg cl r).transition = Transition.skipped ∧
      (run_individual_task cfg cl r).backups = [] ∧
      (run_individual_task cfg cl r).applies = [] ∧
      (run_individual_task cfg cl r).success = false ∧
      dispatch_outcomes cfg cl [r] = [false] ∧
      successCount (dispatch_outcomes cfg cl [r]) = 0 ∧
      failureCount (dispatch_outcomes cfg cl [r]) = 1 := by
  have hconf : get_user_confirmation cfg.user_input = Except.ok false := by
    rcases hin with h | h <;> rw [h] <;> rfl
  have hrun : run_individual_task cfg cl r =
      { transition := Transition.skipped, success := false, backups := [],
        applies := [], res := none } := by
    simp [run_individual_task, hask, hconf]
  refine ⟨by rw [hrun], by rw [hrun], by rw [hrun], by rw [hrun], ?_, ?_, ?_⟩ <;>
    simp [dispatch_outcomes, hrun, successCount, failureCount]

/-- Witness for C4 (amended) at the concrete abort configuration. -/
theorem C4_negative_confirmation_aborts_witness :
    cfgNo.ask_confirmation = true ∧ (cfgNo.user_input = "N" ∨ cfgNo.user_input = "n") ∧
      ((run_individual_task cfgNo clientOk rec0).transition = Transition.skipped ∧
        (run_individual_task cfgNo clientOk rec0).backups = [] ∧
        (run_individual_task cfgNo clientOk rec0).applies = [] ∧
        (run_individual_task cfgNo clientOk rec0).success = false ∧
        dispatch_outcomes cfgNo clientOk [rec0] = [false] ∧
        successCount (dispatch_outcomes cfgNo clientOk [rec0]) = 0 ∧
        failureCount (dispatch_outcomes cfgNo clientOk [rec0]) = 1) :=
  ⟨rfl, Or.inr rfl,
    C4_negative_confirmation_aborts cfgNo clientOk rec0 rfl (Or.inr rfl)⟩

/-- C10: with confirmation enabled, any input string other than `Y`,
`y`, `N`, `n` makes `get_user_confirmation` raise; the dispatcher
catches the exception and invokes `error_callback`, moving a pending
task into `error` — unlike an explicit negative response, which skips
the task and leaves the workspace untouched. -/
theorem C10_invalid_confirmation_input (cfg : Cfg) (cl : Client) (r : TaskRecord)
    (w : Ws) (t : String) (hask : cfg.ask_confirmation = true) :
    (cfg.user_input ∉ (["Y", "y", "N", "n"] : List String) →
      (∃ msg, get_user_confirmation cfg.user_input = Except.error msg) ∧
        (run_individual_task cfg cl r).transition = Transition.error ∧
        (dirHas w.todo t = true → dirHas w.error t = false →
          dirHas (applyOutcome w t (run_individual_task cfg cl r).transition).error t = true ∧
            dirHas (applyOutcome w t (run_individual_task cfg cl r).transition).todo t = false)) ∧
      ((cfg.user_input = "N" ∨ cfg.user_input = "n") →
        (run_individual_task cfg cl r).transition = Transition.skipped ∧
          applyOutcome w t (run_individual_task cfg cl r).transition = w) := by
  constructor
  · intro hbad
    have hconf : get_user_confirmation cfg.user_input =
        Except.error (cfg.user_input ++ " is not a valid input.") := by
      simp [get_user_confirmation, hbad]
    have hrun : run_individual_task cfg cl r =
        { transition := Transition.error, success := false, backups := [],
          applies := [], res := none } := by
      simp [run_individual_task, hask, hconf]
    refine ⟨⟨_, hconf⟩, by rw [hrun], ?_⟩
    intro htodo herr
    obtain ⟨c, hc⟩ := dirHas_eq_some _ _ htodo
    rw [hrun]
    simp [applyOutcome, move_to_error, herr, shutilMoveFile, hc,
      dirHas_dirWrite_self, dirHas_dirRemove_self]
  · intro hin
    have hconf : get_user_confirmation cfg.user_input = Except.ok false := by
      rcases hin with h | h <;> rw [h] <;> rfl
    have hrun : run_individual_task cfg cl r =
        { transition := Transition.skipped, success := false, backups := [],
          applies := [], res := none } := by
      simp [run_individual_task, hask, hconf]
    rw [hrun]
    exact ⟨rfl, rfl⟩

/-- Witness for C10: the invalid-input prong at the string `yes` and the
negative prong at `n`, both over a concrete pending task. -/
theorem C10_invalid_confirmation_input_witness :
    ((∃ msg, get_user_confirmation cfgBad.user_input = Except.error msg) ∧
        (run_individual_task cfgBad clientOk rec0).transition = Transition.error ∧
        (dirHas (applyOutcome wsTodo0 (task_filename rec0)
            (run_individual_task cfgBad clientOk rec0).transition).error
          (task_filename rec0) = true ∧
          dirHas (applyOutcome wsTodo0 (task_filename rec0)
            (run_individual_task cfgBad clientOk rec0).transition).todo
            (task_filename rec0) = false)) ∧
      ((run_individual_task cfgNo clientOk rec0).transition = Transition.skipped ∧
        applyOutcome wsTodo0 (task_filename rec0)
          (run_individual_task cfgNo clientOk rec0).transition = wsTodo0) := by
  constructor
  · obtain ⟨he, ht, hw⟩ :=
      (C10_invalid_confirmation_input cfgBad clientOk rec0 wsTodo0
        (task_filename rec0) rfl).1 (by decide)
    exact ⟨he, ht, hw (by decide) (by decide)⟩
  · exact (C10_invalid_confirmation_input cfgNo clientOk rec0 wsTodo0
      (task_filename rec0) rfl).2 (Or.inr rfl)

end OriginControl
